import Mathlib

/-!
Shallow embedding of the location-resolution and viewport-reconciliation
core of the `traveling` CRM (TypeScript/Next.js).

JavaScript strings are modelled as Lean `String` / `List Char`;
`String.prototype.toLowerCase` as per-character lowering; JavaScript
numbers as `ℝ` (for the trigonometric distance utility) or `ℚ` (for
coordinates carried through filters and caches, where decidability
matters).  Each definition mirrors one function of the source; the file
ends with the theorems about them.
-/

namespace Traveling

/-- Model of `s.toLowerCase()` : per-character lowering of the string's
characters (ASCII case folding, as `Char.toLower`). -/
def jsToLower (s : String) : List Char :=
  s.data.map Char.toLower

/-- `jsToLower` packaged back into a `String` (used for cache keys,
`city.toLowerCase()` in `geo.ts`). -/
def jsToLowerStr (s : String) : String :=
  String.mk (jsToLower s)

/-- Does list `t` start with list `q`?  (Support for `includes`.) -/
def startsWith : List Char → List Char → Bool
  | _, [] => true
  | [], _ :: _ => false
  | c :: t, d :: q => c = d && startsWith t q

/-- Model of JavaScript `t.includes(q)` on strings (viewed as character
lists): `q` occurs contiguously inside `t`. -/
def includes (t q : List Char) : Bool :=
  match t with
  | [] => startsWith [] q
  | c :: t' => startsWith (c :: t') q || includes t' q

/-- The greedy scanning loop of `fuzzyMatch`
(`src/components/search/CommandKSearch.tsx`): advance through the text,
consuming a query character on every match; succeed iff the whole query
is consumed.  `fuzzyLoop t q` is the loop started at text `t`, remaining
query `q`. -/
def fuzzyLoop : List Char → List Char → Bool
  | _, [] => true
  | [], _ :: _ => false
  | c :: t', d :: q' => if c = d then fuzzyLoop t' q' else fuzzyLoop t' (d :: q')

/-- `fuzzyMatch(text, query)` from `CommandKSearch.tsx`:
empty text or query fails (`!text || !query`), otherwise lower-case both,
succeed on contiguous containment (`text.includes(query)`), otherwise run
the greedy subsequence loop. -/
def fuzzyMatch (text query : String) : Bool :=
  if text = "" || query = "" then false
  else
    let t := jsToLower text
    let q := jsToLower query
    includes t q || fuzzyLoop t q

/-- A contact record (`src/types/supabase.ts`, interface `Contact`),
restricted to the fields the core logic reads.  `latitude`/`longitude`
are `number | null` in the source, modelled as `Option ℚ`; the optional
mailing fields as `Option String`. -/
structure Contact where
  id : String
  first_name : String
  last_name : String
  mailing_city : Option String
  mailing_state : Option String
  latitude : Option ℚ
  longitude : Option ℚ
deriving DecidableEq

/-- `a.mailing_city?.toLowerCase() || ''` : the contact's city lowered,
with a missing city read as the empty string. -/
def cityKey (c : Contact) : List Char :=
  jsToLower (c.mailing_city.getD "")

/-- Model of `aCity.localeCompare(bCity)` as plain lexicographic
comparison of the character lists by code point (-1 / 0 / 1). -/
def localeCompare : List Char → List Char → Int
  | [], [] => 0
  | [], _ :: _ => -1
  | _ :: _, [] => 1
  | c :: xs, d :: ys =>
    if c.toNat < d.toNat then -1
    else if d.toNat < c.toNat then 1
    else localeCompare xs ys

/-- The comparator passed to `[...contacts].sort` in `getOrderedContacts`
(`HomePage.tsx` lines 142-158): exact city match first, then city
containing the search term, then `localeCompare` on the lowered cities. -/
def compareContacts (searchCity : List Char) (a b : Contact) : Int :=
  let aCity := cityKey a
  let bCity := cityKey b
  if aCity = searchCity ∧ bCity ≠ searchCity then -1
  else if bCity = searchCity ∧ aCity ≠ searchCity then 1
  else
    let aContains := includes aCity searchCity
    let bContains := includes bCity searchCity
    if aContains ∧ ¬ bContains then -1
    else if bContains ∧ ¬ aContains then 1
    else localeCompare aCity bCity

/-- `getOrderedContacts` (`HomePage.tsx` lines 124-160).  The three
branches of the source: visible contacts first plus the rest filtered by
id; contacts as-is when no city is selected (`!selectedCity`); otherwise
the comparator sort (JavaScript's stable `Array.prototype.sort` modelled
as `List.mergeSort`). -/
def getOrderedContacts (contacts visibleContacts : List Contact)
    (selectedCity : String) : List Contact :=
  if visibleContacts.length > 0 then
    visibleContacts ++
      contacts.filter (fun c => !((visibleContacts.map (fun v => v.id)).contains c.id))
  else if selectedCity = "" then contacts
  else contacts.mergeSort (fun a b => decide (compareContacts (jsToLower selectedCity) a b ≤ 0))

/-- `findIndex`-based visibility rank used by the sidebar comparator:
the index of the contact's id in the visible list, `-1` when absent
(JavaScript `Array.prototype.findIndex`). -/
def visibleIndex (visibleMapContacts : List Contact) (a : Contact) : Int :=
  match visibleMapContacts.findIdx? (fun c => c.id = a.id) with
  | some i => (i : Int)
  | none => -1

/-- The filter predicate inside `relevantToCity`
(`HomePage.tsx` lines 552-555): the contact's city or state contains the
lowered selected city as a substring. -/
def isRelevantToCity (searchCity : List Char) (c : Contact) : Bool :=
  (match c.mailing_city with
   | some city => includes (jsToLower city) searchCity
   | none => false) ||
  (match c.mailing_state with
   | some st => includes (jsToLower st) searchCity
   | none => false)

/-- `relevantToCity` (`HomePage.tsx` lines 551-556):
`selectedCity ? contacts.filter(…) : []` — the contacts relevant to the
selected city, and the empty list when no city is selected. -/
def relevantToCity (contacts : List Contact) (selectedCity : String) :
    List Contact :=
  if selectedCity ≠ "" then
    contacts.filter (isRelevantToCity (jsToLower selectedCity))
  else []

/-- The comparator of the sidebar ordering
(`HomePage.tsx` lines 561-581): visible contacts first, ordered by their
index in the visible list; then contacts whose id is in `relevantIds`
(the ids of the `relevantToCity` list, `HomePage.tsx` line 558); ties
keep the original order (comparator returns 0). -/
def sidebarCompare (visibleMapContacts : List Contact)
    (relevantIds : List String) (a b : Contact) : Int :=
  let aVisibleIndex := visibleIndex visibleMapContacts a
  let bVisibleIndex := visibleIndex visibleMapContacts b
  if aVisibleIndex ≥ 0 ∧ bVisibleIndex ≥ 0 then aVisibleIndex - bVisibleIndex
  else if aVisibleIndex ≥ 0 then -1
  else if bVisibleIndex ≥ 0 then 1
  else
    let aIsRelevant := relevantIds.contains a.id
    let bIsRelevant := relevantIds.contains b.id
    if aIsRelevant ∧ ¬ bIsRelevant then -1
    else if ¬ aIsRelevant ∧ bIsRelevant then 1
    else 0

/-- The sidebar ordering (`HomePage.tsx` lines 538-582, `sidebarContent`):
start from `[...contacts]`; when a city is selected or some contacts are
visible, compute the relevant ids and sort with `sidebarCompare`
(JavaScript's stable `Array.prototype.sort` modelled as
`List.mergeSort`). -/
def sidebarOrderedContacts (contacts visibleMapContacts : List Contact)
    (selectedCity : String) : List Contact :=
  if selectedCity ≠ "" ∨ visibleMapContacts.length > 0 then
    let relevantIds := (relevantToCity contacts selectedCity).map (fun c => c.id)
    contacts.mergeSort
      (fun a b => decide (sidebarCompare visibleMapContacts relevantIds a b ≤ 0))
  else contacts

/-- Modelled from the spec: the three relevance tiers of the
city-fallback ordering — 0 for an exact (lowered) city match with the
selected place, 1 for a city containing it as a substring, 2 for the
rest. -/
def cityRank (searchCity : List Char) (c : Contact) : Nat :=
  if cityKey c = searchCity then 0
  else if includes (cityKey c) searchCity then 1
  else 2

/-- Modelled from the spec: the claimed fallback ordering on contacts —
exact place-name matches first, then substring matches, then the rest
alphabetically by (lowered) city. -/
def specCityOrder (searchCity : List Char) (a b : Contact) : Prop :=
  cityRank searchCity a < cityRank searchCity b ∨
    (cityRank searchCity a = cityRank searchCity b ∧
      localeCompare (cityKey a) (cityKey b) ≤ 0)

/-- `EARTH_RADIUS_MILES` from `src/utils/geo.ts`. -/
noncomputable def EARTH_RADIUS_MILES : ℝ := 3958.8

/-- `CITY_PROXIMITY_RADIUS` from `src/utils/geo.ts`: default radius for
the "soft" city search. -/
noncomputable def CITY_PROXIMITY_RADIUS : ℝ := 60

/-- `toRadians` from `calculateDistance` in `geo.ts`:
`(degrees * Math.PI) / 180`. -/
noncomputable def toRadians (degrees : ℝ) : ℝ := degrees * Real.pi / 180

/-- JavaScript's `Math.atan2(y, x)` on real arguments (finite case). -/
noncomputable def atan2 (y x : ℝ) : ℝ :=
  if 0 < x then Real.arctan (y / x)
  else if x < 0 ∧ 0 ≤ y then Real.arctan (y / x) + Real.pi
  else if x < 0 ∧ y < 0 then Real.arctan (y / x) - Real.pi
  else if x = 0 ∧ 0 < y then Real.pi / 2
  else if x = 0 ∧ y < 0 then -(Real.pi / 2)
  else 0

/-- The local `a` of `calculateDistance` in `geo.ts` (the haversine
of the central angle), extracted as a named function. -/
noncomputable def haversineA (lat1 lon1 lat2 lon2 : ℝ) : ℝ :=
  let dLat := toRadians (lat2 - lat1)
  let dLon := toRadians (lon2 - lon1)
  Real.sin (dLat / 2) * Real.sin (dLat / 2) +
  Real.cos (toRadians lat1) *
  Real.cos (toRadians lat2) *
  Real.sin (dLon / 2) *
  Real.sin (dLon / 2)

/-- `calculateDistance(lat1, lon1, lat2, lon2)` from `geo.ts`: the
haversine great-circle distance in miles,
`c = 2 * Math.atan2(Math.sqrt(a), Math.sqrt(1 - a))` scaled by the
Earth radius. -/
noncomputable def calculateDistance (lat1 lon1 lat2 lon2 : ℝ) : ℝ :=
  let a := haversineA lat1 lon1 lat2 lon2
  let c := 2 * atan2 (Real.sqrt a) (Real.sqrt (1 - a))
  EARTH_RADIUS_MILES * c

/-- `GeocodedLocation` from `geo.ts`: a city name with its
`[longitude, latitude]` coordinate pair.  `coordinates` is a required
field of the TypeScript interface, so the `!location.coordinates`
guards in `geo.ts` can never fire (a JavaScript array is always
truthy); they are therefore not represented. -/
structure GeocodedLocation where
  city : String
  coordinates : ℝ × ℝ

open Classical in
/-- `findNearbyCities(targetCity, allLocations, radiusMiles)` from
`geo.ts`: keep the locations whose haversine distance to the target is
at most the radius, and return their city names. -/
noncomputable def findNearbyCities (targetCity : GeocodedLocation)
    (allLocations : List GeocodedLocation)
    (radiusMiles : ℝ) : List String :=
  let targetLon := targetCity.coordinates.1
  let targetLat := targetCity.coordinates.2
  let nearbyCities := allLocations.filter (fun location =>
    let lon := location.coordinates.1
    let lat := location.coordinates.2
    decide (calculateDistance targetLat targetLon lat lon ≤ radiusMiles))
  nearbyCities.map (fun location => location.city)

/-- One geocoding result ("feature") as the provider returns it: the
canonical place name (`place_name`) and the coordinate pair the code
reads (`geometry.coordinates` / `center`). -/
structure Feature where
  place_name : String
  coordinates : ℝ × ℝ

/-- What one round-trip to the geocoding server can yield: a transport
or provider error (`fetch` throws, or `!response.ok`), or a JSON body
with a (possibly empty) feature list. -/
inductive ServerResponse where
  | error : ServerResponse
  | success : List Feature → ServerResponse

/-- The process-wide geocode cache of `geo.ts` (`geocodeCache`),
modelled as an association list from lower-cased city name to the
cached location; newest entry first, as JavaScript property assignment
is modelled by prepending. -/
def GeocodeCache := List (String × GeocodedLocation)

/-- `getGeocodedLocation(city)` from `geo.ts`.  The network is supplied
as an oracle from the queried city to the server's response; the result
is the returned `GeocodedLocation | null`, the cache after the call, and
the number of network round-trips performed.  Mirrors the source: cache
hit on the lower-cased key returns immediately with no fetch; a fetch
error or a response without features returns `null` and leaves the
cache unchanged; a first feature yields a location whose `city` field
is the input name and whose coordinates are the feature's, stored under
the lower-cased key. -/
def getGeocodedLocation (oracle : String → ServerResponse)
    (cache : GeocodeCache) (city : String) :
    Option GeocodedLocation × GeocodeCache × Nat :=
  match List.lookup (jsToLowerStr city) cache with
  | some loc => (some loc, cache, 0)
  | none =>
    match oracle city with
    | ServerResponse.error => (none, cache, 1)
    | ServerResponse.success features =>
      match features with
      | [] => (none, cache, 1)
      | result :: _ =>
        let location : GeocodedLocation := ⟨city, result.coordinates⟩
        (some location, (jsToLowerStr city, location) :: cache, 1)

/-- The responses the geocode API route can produce
(`src/app/api/geocode/route.ts`): a 400 for a missing city parameter, a
propagated upstream error status, or the upstream JSON annotated with
the `global` flag of the answering attempt. -/
inductive RouteResult where
  | badRequest : RouteResult
  | upstreamError : RouteResult
  | okJson : List Feature → Bool → RouteResult

/-- The geocode API route handler `GET`
(`src/app/api/geocode/route.ts`, the version with the `global` query
parameter).  The upstream Mapbox call is an oracle from the `global`
flag of the attempt (which controls the country allow-list
`us,ca,gb,de,fr`) to the server's response; the city and `global` query
parameters are explicit arguments.  Returns the route's response
together with the number of upstream fetches.  When the restricted
attempt returns zero features and `global` is not set, the handler
calls itself once with `global=true`, exactly as the source's
self-call with modified search parameters. -/
def GET (fetchMapbox : Bool → ServerResponse) (city : Option String)
    (global : Bool) : RouteResult × Nat :=
  match city with
  | none => (RouteResult.badRequest, 0)
  | some _ =>
    match fetchMapbox global with
    | ServerResponse.error => (RouteResult.upstreamError, 1)
    | ServerResponse.success features =>
      if features.isEmpty && !global then
        let recursed := GET fetchMapbox city true
        (recursed.1, recursed.2 + 1)
      else (RouteResult.okJson features global, 1)
termination_by (if global then 0 else 1)
decreasing_by cases global <;> simp_all

/-- JavaScript truthiness of an optional numeric field: `null`,
`undefined` and `0` are falsy. -/
def jsTruthyNum : Option ℚ → Bool
  | none => false
  | some x => !(x = 0)

/-- `validContacts` from `MapboxMap.tsx` (lines 60-63): contacts kept
for map markers, filtered by `contact.latitude && contact.longitude`
(JavaScript truthiness, so `0`, `null` and absent are all rejected). -/
def validContacts (contacts : List Contact) : List Contact :=
  contacts.filter (fun contact =>
    jsTruthyNum contact.latitude && jsTruthyNum contact.longitude)

/-- The visible-contact computation of `updateVisibleContacts`
(`MapboxMap.tsx` lines 554-612): filter `validContacts` by the
inclusive bounds check, after the `!contact.longitude ||
!contact.latitude` truthiness guard.  `sw`/`ne` are the rectangle's
corners as `(lng, lat)` pairs. -/
def updateVisibleContacts (contacts : List Contact) (sw ne : ℚ × ℚ) :
    List Contact :=
  (validContacts contacts).filter (fun contact =>
    if !(jsTruthyNum contact.longitude) || !(jsTruthyNum contact.latitude) then
      false
    else
      match contact.longitude, contact.latitude with
      | some lon, some lat =>
        decide (lon ≥ sw.1 ∧ lon ≤ ne.1 ∧ lat ≥ sw.2 ∧ lat ≤ ne.2)
      | _, _ => false)

/-! ## Theorems -/

/-- If `t` starts with `q` then `q` is a subsequence of `t`. -/
theorem sublist_of_startsWith : ∀ (t q : List Char),
    startsWith t q = true → List.Sublist q t := by
  intro t q
  induction q generalizing t with
  | nil => intro _; exact List.nil_sublist t
  | cons d q' ih =>
    cases t with
    | nil => intro h; simp [startsWith] at h
    | cons c t' =>
      intro h
      simp only [startsWith, Bool.and_eq_true, decide_eq_true_eq] at h
      obtain ⟨rfl, h2⟩ := h
      exact List.Sublist.cons₂ _ (ih t' h2)

/-- A contiguous occurrence is in particular an ordered subsequence. -/
theorem sublist_of_includes : ∀ (t q : List Char),
    includes t q = true → List.Sublist q t := by
  intro t q
  induction t with
  | nil => intro h; exact sublist_of_startsWith [] q h
  | cons c t' ih =>
    intro h
    simp only [includes, Bool.or_eq_true] at h
    rcases h with h | h
    · exact sublist_of_startsWith (c :: t') q h
    · exact List.Sublist.cons c (ih h)

/-- The greedy scanning loop of `fuzzyMatch` succeeds exactly when the
query is an ordered subsequence of the text. -/
theorem fuzzyLoop_iff_sublist : ∀ (t q : List Char),
    fuzzyLoop t q = true ↔ List.Sublist q t := by
  intro t
  induction t with
  | nil =>
    intro q
    cases q with
    | nil => simp [fuzzyLoop]
    | cons d q' => simp [fuzzyLoop]
  | cons c t' ih =>
    intro q
    cases q with
    | nil => simp [fuzzyLoop]
    | cons d q' =>
      by_cases hcd : c = d
      · subst hcd
        rw [fuzzyLoop, if_pos rfl, ih q']
        exact (List.cons_sublist_cons).symm
      · rw [fuzzyLoop, if_neg hcd, ih (d :: q')]
        constructor
        · exact fun h => List.Sublist.cons c h
        · intro h
          cases h with
          | cons _ h => exact h
          | cons₂ _ h => exact absurd rfl hcd

/-- C2: `fuzzyMatch` is case-insensitive (it operates on the lowered
characters); for nonempty text and query it returns `true` exactly when
the lowered query is an ordered subsequence of the lowered text — in
particular whenever the query occurs contiguously —; it returns `false`
when the text or the query is empty, and `false` whenever some
character of the query is entirely absent from the text. -/
theorem fuzzyMatch_spec (text query : String) :
    (text ≠ "" → query ≠ "" →
      (fuzzyMatch text query = true ↔
        List.Sublist (jsToLower query) (jsToLower text)))
  ∧ fuzzyMatch text "" = false
  ∧ fuzzyMatch "" query = false
  ∧ (includes (jsToLower text) (jsToLower query) = true →
      text ≠ "" → query ≠ "" → fuzzyMatch text query = true)
  ∧ ((∃ c, c ∈ jsToLower query ∧ c ∉ jsToLower text) →
      fuzzyMatch text query = false) := by
  have hmain : text ≠ "" → query ≠ "" →
      (fuzzyMatch text query = true ↔
        List.Sublist (jsToLower query) (jsToLower text)) := by
    intro ht hq
    unfold fuzzyMatch
    rw [if_neg (by simp [ht, hq])]
    constructor
    · intro h
      rcases Bool.or_eq_true_iff.mp h with h | h
      · exact sublist_of_includes _ _ h
      · exact (fuzzyLoop_iff_sublist _ _).mp h
    · intro h
      exact Bool.or_eq_true_iff.mpr (Or.inr ((fuzzyLoop_iff_sublist _ _).mpr h))
  refine ⟨hmain, by simp [fuzzyMatch], by simp [fuzzyMatch], ?_, ?_⟩
  · intro hinc ht hq
    exact (hmain ht hq).mpr (sublist_of_includes _ _ hinc)
  · intro ⟨c, hcq, hct⟩
    by_cases ht : text = ""
    · subst ht; simp [fuzzyMatch]
    by_cases hq : query = ""
    · subst hq; simp [fuzzyMatch]
    cases h : fuzzyMatch text query with
    | false => rfl
    | true =>
      exact absurd (((hmain ht hq).mp h).subset hcq) hct

/-- Witness for C2 at the spec's own example: the typo "austn" fuzzily
matches "Austin". -/
theorem fuzzyMatch_spec_witness : fuzzyMatch "Austin" "austn" = true :=
  ((fuzzyMatch_spec "Austin" "austn").1 (by decide) (by decide)).mpr (by decide)

/-- The contacts whose id occurs among the visible ids are exactly the
visible contacts (up to order), provided ids are pairwise distinct and
the visible list is a duplicate-free selection of the contacts. -/
theorem filter_visible_ids_perm (contacts visibleContacts : List Contact)
    (hids : (contacts.map (fun c => c.id)).Nodup)
    (hsub : visibleContacts ⊆ contacts)
    (hvn : visibleContacts.Nodup) :
    List.Perm
      (contacts.filter
        (fun c => (visibleContacts.map (fun v => v.id)).contains c.id))
      visibleContacts := by
  have hcn : contacts.Nodup := List.Nodup.of_map _ hids
  rw [List.perm_ext_iff_of_nodup (hcn.filter _) hvn]
  intro a
  simp only [List.mem_filter, List.elem_iff, List.mem_map]
  constructor
  · rintro ⟨ha, v, hv, hveq⟩
    have : v = a := List.inj_on_of_nodup_map hids (hsub hv) ha hveq
    exact this ▸ hv
  · intro hav
    exact ⟨hsub hav, a, hav, rfl⟩

/-- C1 (amended): for every contact list whose ids are pairwise
distinct and every duplicate-free visible selection drawn from it, both
contact-list reorderings — `getOrderedContacts` and the sidebar
ordering — return a permutation of the contact list: same multiset in,
same multiset out, for every selected city. -/
theorem getOrderedContacts_perm (contacts visibleContacts : List Contact)
    (selectedCity : String)
    (hids : (contacts.map (fun c => c.id)).Nodup)
    (hsub : visibleContacts ⊆ contacts)
    (hvn : visibleContacts.Nodup) :
    List.Perm (getOrderedContacts contacts visibleContacts selectedCity) contacts
  ∧ List.Perm (sidebarOrderedContacts contacts visibleContacts selectedCity)
      contacts := by
  constructor
  · unfold getOrderedContacts
    by_cases hlen : visibleContacts.length > 0
    · rw [if_pos hlen]
      have hperm := filter_visible_ids_perm contacts visibleContacts hids hsub hvn
      exact List.Perm.trans
        (List.Perm.append_right _ hperm.symm)
        (List.filter_append_perm
          (fun c => (visibleContacts.map (fun v => v.id)).contains c.id) contacts)
    · rw [if_neg hlen]
      by_cases hcity : selectedCity = ""
      · rw [if_pos hcity]
      · rw [if_neg hcity]
        exact List.mergeSort_perm contacts _
  · unfold sidebarOrderedContacts
    by_cases hcond : selectedCity ≠ "" ∨ visibleContacts.length > 0
    · rw [if_pos hcond]
      exact List.mergeSort_perm contacts _
    · rw [if_neg hcond]

/-- Witness for C1: a two-contact list with distinct ids, one of them
visible; both orderings permute it. -/
theorem getOrderedContacts_perm_witness :
    List.Perm
      (getOrderedContacts
        [⟨"a", "Alice", "Smith", some "Austin", some "TX", none, none⟩,
         ⟨"b", "Bob", "Jones", some "Reno", some "NV", none, none⟩]
        [⟨"a", "Alice", "Smith", some "Austin", some "TX", none, none⟩] "")
      [⟨"a", "Alice", "Smith", some "Austin", some "TX", none, none⟩,
       ⟨"b", "Bob", "Jones", some "Reno", some "NV", none, none⟩]
  ∧ List.Perm
      (sidebarOrderedContacts
        [⟨"a", "Alice", "Smith", some "Austin", some "TX", none, none⟩,
         ⟨"b", "Bob", "Jones", some "Reno", some "NV", none, none⟩]
        [⟨"a", "Alice", "Smith", some "Austin", some "TX", none, none⟩] "")
      [⟨"a", "Alice", "Smith", some "Austin", some "TX", none, none⟩,
       ⟨"b", "Bob", "Jones", some "Reno", some "NV", none, none⟩] :=
  getOrderedContacts_perm _ _ ""
    (by decide)
    (by intro a ha; simp only [List.mem_singleton] at ha; simp [ha])
    (by decide)

/-- Counterexample to C1 as stated: with two distinct contact records
sharing the id "a" and one of them visible, `getOrderedContacts` drops
the other — the output is not a permutation of the input. -/
theorem getOrderedContacts_dup_id_counterexample :
    ¬ List.Perm
        (getOrderedContacts
          [⟨"a", "Alice", "Smith", some "Austin", some "TX", none, none⟩,
           ⟨"a", "Bob", "Jones", some "Reno", some "NV", none, none⟩]
          [⟨"a", "Alice", "Smith", some "Austin", some "TX", none, none⟩] "")
        [⟨"a", "Alice", "Smith", some "Austin", some "TX", none, none⟩,
         ⟨"a", "Bob", "Jones", some "Reno", some "NV", none, none⟩] := by
  decide

/-- Every list starts with itself. -/
theorem startsWith_self : ∀ t : List Char, startsWith t t = true := by
  intro t
  induction t with
  | nil => rfl
  | cons c t' ih => simp [startsWith, ih]

/-- Every list contains itself contiguously. -/
theorem includes_self : ∀ t : List Char, includes t t = true := by
  intro t
  cases t with
  | nil => rfl
  | cons c t' => simp [includes, startsWith_self]

/-- `localeCompare` of a list with itself is `0`. -/
theorem localeCompare_self : ∀ x : List Char, localeCompare x x = 0 := by
  intro x
  induction x with
  | nil => rfl
  | cons c xs ih => simp [localeCompare, ih]

/-- `localeCompare` is total: one of the two directions is ≤ 0. -/
theorem localeCompare_total : ∀ x y : List Char,
    localeCompare x y ≤ 0 ∨ localeCompare y x ≤ 0 := by
  intro x
  induction x with
  | nil => intro y; cases y <;> simp [localeCompare]
  | cons c xs ih =>
    intro y
    cases y with
    | nil => right; simp [localeCompare]
    | cons d ys =>
      simp only [localeCompare]
      rcases Nat.lt_trichotomy c.toNat d.toNat with h | h | h
      · left; rw [if_pos h]; omega
      · have h1 : ¬ c.toNat < d.toNat := by omega
        have h2 : ¬ d.toNat < c.toNat := by omega
        rw [if_neg h1, if_neg h2, if_neg h2, if_neg h1]
        exact ih ys
      · right; rw [if_pos h]; omega

/-- `localeCompare`'s nonpositive part is transitive. -/
theorem localeCompare_trans : ∀ x y z : List Char,
    localeCompare x y ≤ 0 → localeCompare y z ≤ 0 → localeCompare x z ≤ 0 := by
  intro x
  induction x with
  | nil => intro y z _ _; cases z <;> simp [localeCompare]
  | cons c xs ih =>
    intro y z hxy hyz
    cases y with
    | nil => simp [localeCompare] at hxy
    | cons d ys =>
      cases z with
      | nil => simp [localeCompare] at hyz
      | cons e zs =>
        simp only [localeCompare] at hxy hyz ⊢
        split_ifs at hxy hyz ⊢ <;>
          first
            | omega
            | exact ih ys zs hxy hyz

/-- The comparator of the city-fallback sort agrees with the claimed
ordering: its nonpositive part is exactly `specCityOrder`. -/
theorem compareContacts_le_iff (s : List Char) (a b : Contact) :
    compareContacts s a b ≤ 0 ↔ specCityOrder s a b := by
  unfold compareContacts specCityOrder cityRank
  split_ifs <;> simp_all [localeCompare_self, includes_self]

/-- The comparator's nonpositive part is transitive. -/
theorem compareContacts_le_trans (s : List Char) (a b c : Contact) :
    compareContacts s a b ≤ 0 → compareContacts s b c ≤ 0 →
    compareContacts s a c ≤ 0 := by
  rw [compareContacts_le_iff, compareContacts_le_iff, compareContacts_le_iff]
  unfold specCityOrder
  rintro (h1 | ⟨h1, h1'⟩) (h2 | ⟨h2, h2'⟩)
  · left; omega
  · left; omega
  · left; omega
  · right; exact ⟨by omega, localeCompare_trans _ _ _ h1' h2'⟩

/-- The comparator's nonpositive part is total. -/
theorem compareContacts_le_total (s : List Char) (a b : Contact) :
    compareContacts s a b ≤ 0 ∨ compareContacts s b a ≤ 0 := by
  rw [compareContacts_le_iff, compareContacts_le_iff]
  unfold specCityOrder
  rcases Nat.lt_trichotomy (cityRank s a) (cityRank s b) with h | h | h
  · left; left; exact h
  · rcases localeCompare_total (cityKey a) (cityKey b) with hl | hl
    · left; right; exact ⟨h, hl⟩
    · right; right; exact ⟨h.symm, hl⟩
  · right; left; exact h

/-- C8: when no contacts are visible and a place is selected,
`getOrderedContacts` sorts the contacts by the claimed fallback order —
exact city match with the selected place first, then cities containing
it, then the rest alphabetically by lowered city — and the result is a
permutation of the input. -/
theorem getOrderedContacts_city_fallback (contacts : List Contact)
    (selectedCity : String) (hs : selectedCity ≠ "") :
    List.Sorted (specCityOrder (jsToLower selectedCity))
        (getOrderedContacts contacts [] selectedCity)
  ∧ List.Perm (getOrderedContacts contacts [] selectedCity) contacts := by
  have hbranch : getOrderedContacts contacts [] selectedCity =
      contacts.mergeSort
        (fun a b => decide (compareContacts (jsToLower selectedCity) a b ≤ 0)) := by
    unfold getOrderedContacts
    rw [if_neg (by simp), if_neg hs]
  constructor
  · rw [hbranch]
    have hsorted :=
      @List.sorted_mergeSort Contact
        (fun a b => decide (compareContacts (jsToLower selectedCity) a b ≤ 0))
        (by
          intro a b c hab hbc
          simp only [decide_eq_true_eq] at hab hbc ⊢
          exact compareContacts_le_trans _ a b c hab hbc)
        (by
          intro a b
          simp only [Bool.or_eq_true, decide_eq_true_eq]
          exact compareContacts_le_total _ a b)
        contacts
    exact hsorted.imp (fun h =>
      (compareContacts_le_iff _ _ _).mp (by simpa using h))
  · rw [hbranch]
    exact List.mergeSort_perm contacts _

/-- Witness for C8 on a concrete three-contact list with the selected
place "austin". -/
theorem getOrderedContacts_city_fallback_witness :
    List.Sorted (specCityOrder (jsToLower "austin"))
        (getOrderedContacts
          [⟨"1", "Rita", "Reno", some "Reno", some "NV", none, none⟩,
           ⟨"2", "Alice", "Austin", some "Austin", some "TX", none, none⟩,
           ⟨"3", "Pat", "Port", some "South Austin", some "TX", none, none⟩]
          [] "austin")
  ∧ List.Perm
      (getOrderedContacts
        [⟨"1", "Rita", "Reno", some "Reno", some "NV", none, none⟩,
         ⟨"2", "Alice", "Austin", some "Austin", some "TX", none, none⟩,
         ⟨"3", "Pat", "Port", some "South Austin", some "TX", none, none⟩]
        [] "austin")
      [⟨"1", "Rita", "Reno", some "Reno", some "NV", none, none⟩,
       ⟨"2", "Alice", "Austin", some "Austin", some "TX", none, none⟩,
       ⟨"3", "Pat", "Port", some "South Austin", some "TX", none, none⟩] :=
  getOrderedContacts_city_fallback _ "austin" (by decide)

/-- The haversine of the central angle vanishes on equal points. -/
theorem haversineA_self (lat lon : ℝ) : haversineA lat lon lat lon = 0 := by
  simp [haversineA, toRadians]

/-- The haversine of the central angle is symmetric in its two points. -/
theorem haversineA_symm (lat1 lon1 lat2 lon2 : ℝ) :
    haversineA lat1 lon1 lat2 lon2 = haversineA lat2 lon2 lat1 lon1 := by
  simp only [haversineA, toRadians]
  have h1 : (lat1 - lat2) * Real.pi / 180 / 2 =
      -((lat2 - lat1) * Real.pi / 180 / 2) := by ring
  have h2 : (lon1 - lon2) * Real.pi / 180 / 2 =
      -((lon2 - lon1) * Real.pi / 180 / 2) := by ring
  rw [h1, h2, Real.sin_neg, Real.sin_neg]
  ring

/-- `calculateDistance(a, a) = 0`. -/
theorem calculateDistance_self (lat lon : ℝ) :
    calculateDistance lat lon lat lon = 0 := by
  simp [calculateDistance, haversineA_self, atan2, Real.arctan_zero]

/-- `calculateDistance` is symmetric in its two points. -/
theorem calculateDistance_symm (lat1 lon1 lat2 lon2 : ℝ) :
    calculateDistance lat1 lon1 lat2 lon2 =
      calculateDistance lat2 lon2 lat1 lon1 := by
  unfold calculateDistance
  rw [haversineA_symm]

/-- C4: `calculateDistance` is the haversine great-circle distance on
the fixed Earth radius 3958.8 miles (a pure total function of its four
real arguments); it vanishes on equal points and is symmetric. -/
theorem calculateDistance_spec (lat1 lon1 lat2 lon2 : ℝ) :
    EARTH_RADIUS_MILES = 3958.8
  ∧ calculateDistance lat1 lon1 lat2 lon2 =
      EARTH_RADIUS_MILES *
        (2 * atan2 (Real.sqrt (haversineA lat1 lon1 lat2 lon2))
          (Real.sqrt (1 - haversineA lat1 lon1 lat2 lon2)))
  ∧ calculateDistance lat1 lon1 lat1 lon1 = 0
  ∧ calculateDistance lat1 lon1 lat2 lon2 =
      calculateDistance lat2 lon2 lat1 lon1 :=
  ⟨rfl, rfl, calculateDistance_self lat1 lon1,
    calculateDistance_symm lat1 lon1 lat2 lon2⟩

/-- C3: `findNearbyCities` includes a city name in its result exactly
when some candidate with that name lies at haversine distance at most
the radius from the anchor (so a candidate at distance `radius + 1` is
excluded and one at `radius - 1` is included); for a nonnegative radius
the anchor itself, when present among the candidates, is included; and
the default radius `CITY_PROXIMITY_RADIUS` is the constant 60 miles. -/
theorem findNearbyCities_spec (targetCity : GeocodedLocation)
    (allLocations : List GeocodedLocation) (radiusMiles : ℝ) :
    (∀ name : String,
      name ∈ findNearbyCities targetCity allLocations radiusMiles ↔
        ∃ loc, loc ∈ allLocations ∧ loc.city = name ∧
          calculateDistance targetCity.coordinates.2 targetCity.coordinates.1
            loc.coordinates.2 loc.coordinates.1 ≤ radiusMiles)
  ∧ (0 ≤ radiusMiles → targetCity ∈ allLocations →
      targetCity.city ∈ findNearbyCities targetCity allLocations radiusMiles)
  ∧ CITY_PROXIMITY_RADIUS = 60 := by
  have hchar : ∀ name : String,
      name ∈ findNearbyCities targetCity allLocations radiusMiles ↔
        ∃ loc, loc ∈ allLocations ∧ loc.city = name ∧
          calculateDistance targetCity.coordinates.2 targetCity.coordinates.1
            loc.coordinates.2 loc.coordinates.1 ≤ radiusMiles := by
    intro name
    simp only [findNearbyCities, List.mem_map, List.mem_filter,
      decide_eq_true_eq]
    constructor
    · rintro ⟨loc, ⟨hmem, hdist⟩, rfl⟩
      exact ⟨loc, hmem, rfl, hdist⟩
    · rintro ⟨loc, hmem, rfl, hdist⟩
      exact ⟨loc, ⟨hmem, hdist⟩, rfl⟩
  refine ⟨hchar, fun hr hmem => ?_, rfl⟩
  exact (hchar targetCity.city).mpr
    ⟨targetCity, hmem, rfl, by rw [calculateDistance_self]; exact hr⟩

/-- Witness for C3: with the default radius 60 the anchor, present in a
singleton candidate list, is returned. -/
theorem findNearbyCities_spec_witness :
    (⟨"Austin", (1, 2)⟩ : GeocodedLocation).city ∈
      findNearbyCities ⟨"Austin", (1, 2)⟩ [⟨"Austin", (1, 2)⟩] 60 :=
  (findNearbyCities_spec ⟨"Austin", (1, 2)⟩ [⟨"Austin", (1, 2)⟩] 60).2.1
    (by simp) (by simp)

/-- C5: geocode cache idempotence — once a resolution has succeeded
(stored under the lower-cased input name), a second call whose name is
equal up to case returns the identical cached location with zero
network round-trips and an unchanged cache, whatever the network does
on the second call; individual calls make at most one network call. -/
theorem getGeocodedLocation_cache_idempotent
    (oracle oracle' : String → ServerResponse) (cache cache' : GeocodeCache)
    (city city' : String) (loc : GeocodedLocation) (n : Nat)
    (h : getGeocodedLocation oracle cache city = (some loc, cache', n))
    (hkey : jsToLowerStr city' = jsToLowerStr city) :
    getGeocodedLocation oracle' cache' city' = (some loc, cache', 0) ∧ n ≤ 1 := by
  unfold getGeocodedLocation at h
  cases hl : List.lookup (jsToLowerStr city) cache with
  | some l =>
    rw [hl] at h
    simp only [Prod.mk.injEq, Option.some.injEq] at h
    obtain ⟨rfl, rfl, rfl⟩ := h
    constructor
    · unfold getGeocodedLocation
      rw [hkey, hl]
    · omega
  | none =>
    rw [hl] at h
    cases ho : oracle city with
    | error => rw [ho] at h; simp at h
    | success features =>
      rw [ho] at h
      cases features with
      | nil => simp at h
      | cons r rest =>
        simp only [Prod.mk.injEq, Option.some.injEq] at h
        obtain ⟨rfl, rfl, rfl⟩ := h
        constructor
        · unfold getGeocodedLocation
          rw [hkey]
          simp [List.lookup]
        · omega

/-- Witness for C5: resolve "Austin" against a one-feature server, then
look "AUSTIN" up against a failing server — the cached location comes
back with no network call. -/
theorem getGeocodedLocation_cache_idempotent_witness :
    getGeocodedLocation (fun _ => ServerResponse.error)
        ((jsToLowerStr "Austin", (⟨"Austin", (1, 2)⟩ : GeocodedLocation)) :: [])
        "AUSTIN"
      = (some ⟨"Austin", (1, 2)⟩,
         (jsToLowerStr "Austin", (⟨"Austin", (1, 2)⟩ : GeocodedLocation)) :: [],
         0)
  ∧ 1 ≤ 1 :=
  getGeocodedLocation_cache_idempotent
    (fun _ => ServerResponse.success [⟨"Austin, Texas, United States", (1, 2)⟩])
    (fun _ => ServerResponse.error)
    [] ((jsToLowerStr "Austin", (⟨"Austin", (1, 2)⟩ : GeocodedLocation)) :: [])
    "Austin" "AUSTIN" ⟨"Austin", (1, 2)⟩ 1 (by rfl) (by decide)

/-- Counterexample to C6 as stated: a provider error and a no-result
outcome are reported to the caller identically — both calls return the
very same `(null, unchanged cache, one fetch)` triple, so the caller
cannot distinguish "no such place" from "service unavailable". -/
theorem geocode_error_indistinguishable_counterexample :
    getGeocodedLocation (fun _ => ServerResponse.error) [] "Reno"
        = (none, [], 1)
  ∧ getGeocodedLocation (fun _ => ServerResponse.success []) [] "Reno"
        = (none, [], 1) :=
  ⟨rfl, rfl⟩

/-- C6 (amended): a network or provider error is reported to the caller
as a `null` result — the same value as the NotFound outcome, so the two
are not distinguishable — and neither failure is cached: the cache is
returned unchanged, so a transient outage does not affect future
lookups of the same name. -/
theorem geocode_failures_not_cached (oracle : String → ServerResponse)
    (cache : GeocodeCache) (city : String)
    (hmiss : List.lookup (jsToLowerStr city) cache = none)
    (hfail : oracle city = ServerResponse.error ∨
      oracle city = ServerResponse.success []) :
    getGeocodedLocation oracle cache city = (none, cache, 1) := by
  unfold getGeocodedLocation
  rw [hmiss]
  rcases hfail with hf | hf <;> rw [hf]

/-- Witness for C6 (amended) at a concrete erroring server. -/
theorem geocode_failures_not_cached_witness :
    getGeocodedLocation (fun _ => ServerResponse.error) [] "Tahoe"
      = (none, [], 1) :=
  geocode_failures_not_cached (fun _ => ServerResponse.error) [] "Tahoe"
    (by rfl) (Or.inl rfl)

/-- Counterexample to C9 as stated: resolving "austin" against a server
whose top feature has the canonical place name
"Austin, Texas, United States" stores and returns a location whose name
field is the input "austin", not the provider's canonical name. -/
theorem geocode_canonical_name_counterexample :
    ((getGeocodedLocation
        (fun _ => ServerResponse.success
          [⟨"Austin, Texas, United States", (1, 2)⟩])
        [] "austin").1.map GeocodedLocation.city) = some "austin"
  ∧ "austin" ≠ "Austin, Texas, United States" :=
  ⟨rfl, by decide⟩

/-- C9 (amended): on every successful resolution the stored and
returned `GeocodedLocation` carries the caller's input name
(case-preserving) as its name field, together with the top-ranked
result's coordinates; it is cached under the lower-cased input name.
The provider's canonical place name is not used. -/
theorem getGeocodedLocation_success (oracle : String → ServerResponse)
    (cache : GeocodeCache) (city : String) (f : Feature) (fs : List Feature)
    (hmiss : List.lookup (jsToLowerStr city) cache = none)
    (hok : oracle city = ServerResponse.success (f :: fs)) :
    getGeocodedLocation oracle cache city
      = (some ⟨city, f.coordinates⟩,
         (jsToLowerStr city, (⟨city, f.coordinates⟩ : GeocodedLocation)) :: cache,
         1) := by
  unfold getGeocodedLocation
  rw [hmiss, hok]

/-- Witness for C9 (amended) at a concrete one-feature server. -/
theorem getGeocodedLocation_success_witness :
    getGeocodedLocation
        (fun _ => ServerResponse.success
          [⟨"Austin, Texas, United States", (1, 2)⟩])
        [] "austin"
      = (some ⟨"austin", (1, 2)⟩,
         (jsToLowerStr "austin", (⟨"austin", (1, 2)⟩ : GeocodedLocation)) :: [],
         1) :=
  getGeocodedLocation_success
    (fun _ => ServerResponse.success [⟨"Austin, Texas, United States", (1, 2)⟩])
    [] "austin" ⟨"Austin, Texas, United States", (1, 2)⟩ [] (by rfl) (by rfl)

/-- C7: the geocode route performs at most two upstream fetches in
total and at most one when global scope was requested; and when the
region-restricted attempt yields zero results and the caller has not
requested global scope, it retries exactly once with global scope (the
self-call with `global=true`), adding one fetch — so the widening
happens at most once and the recursion always terminates. -/
theorem GET_bounded_widening (fetchMapbox : Bool → ServerResponse)
    (city : Option String) (global : Bool) :
    (GET fetchMapbox city global).2 ≤ 2
  ∧ (GET fetchMapbox city true).2 ≤ 1
  ∧ (∀ s : String, city = some s →
      fetchMapbox false = ServerResponse.success [] →
      GET fetchMapbox city false
        = ((GET fetchMapbox city true).1,
           (GET fetchMapbox city true).2 + 1)) := by
  have h1 : ∀ c : Option String, (GET fetchMapbox c true).2 ≤ 1 := by
    intro c
    unfold GET
    cases c with
    | none => simp
    | some s =>
      cases fetchMapbox true with
      | error => simp
      | success features => simp
  refine ⟨?_, h1 city, ?_⟩
  · cases global with
    | true => exact le_trans (h1 city) (by omega)
    | false =>
      unfold GET
      cases city with
      | none => simp
      | some s =>
        cases hf : fetchMapbox false with
        | error => simp
        | success features =>
          by_cases he : features.isEmpty
          · have := h1 (some s)
            simp only [he, Bool.not_false, Bool.and_true, if_true]
            omega
          · simp [he]
  · intro s hc hf
    subst hc
    conv_lhs => unfold GET
    rw [hf]
    simp

/-- Witness for C7 at a server that has no region-restricted results
for "Reno" but does have a global one. -/
theorem GET_bounded_widening_witness :
    GET
        (fun g => if g then
          ServerResponse.success [⟨"Reno, Nevada, United States", (1, 2)⟩]
          else ServerResponse.success [])
        (some "Reno") false
      = ((GET
            (fun g => if g then
              ServerResponse.success [⟨"Reno, Nevada, United States", (1, 2)⟩]
              else ServerResponse.success [])
            (some "Reno") true).1,
         (GET
            (fun g => if g then
              ServerResponse.success [⟨"Reno, Nevada, United States", (1, 2)⟩]
              else ServerResponse.success [])
            (some "Reno") true).2 + 1) :=
  (GET_bounded_widening
    (fun g => if g then
      ServerResponse.success [⟨"Reno, Nevada, United States", (1, 2)⟩]
      else ServerResponse.success [])
    (some "Reno") false).2.2 "Reno" rfl (by rfl)

/-- C10: a contact whose latitude or longitude is `null`/absent or
exactly `0` is excluded by the JavaScript-truthiness coordinate check:
it never appears in `validContacts` (the marker set) nor in the
visible-contacts computation, for any viewport bounds. -/
theorem zero_coordinate_excluded (contacts : List Contact) (c : Contact)
    (sw ne : ℚ × ℚ)
    (h : c.latitude = none ∨ c.latitude = some 0 ∨
         c.longitude = none ∨ c.longitude = some 0) :
    c ∉ validContacts contacts ∧ c ∉ updateVisibleContacts contacts sw ne := by
  have hv : c ∉ validContacts contacts := by
    intro hmem
    unfold validContacts at hmem
    rw [List.mem_filter] at hmem
    obtain ⟨_, hcond⟩ := hmem
    rcases h with h | h | h | h <;> rw [h] at hcond <;> simp [jsTruthyNum] at hcond
  refine ⟨hv, fun hmem => hv ?_⟩
  unfold updateVisibleContacts at hmem
  exact (List.mem_filter.mp hmem).1

/-- Witness for C10: a contact sitting on the equator (latitude 0,
longitude 10) is dropped from the marker set and from the visible set
even under world-spanning bounds. -/
theorem zero_coordinate_excluded_witness :
    (⟨"e", "Eve", "Eq", some "Quito", none, some 0, some 10⟩ : Contact) ∉
        validContacts [⟨"e", "Eve", "Eq", some "Quito", none, some 0, some 10⟩]
  ∧ (⟨"e", "Eve", "Eq", some "Quito", none, some 0, some 10⟩ : Contact) ∉
        updateVisibleContacts
          [⟨"e", "Eve", "Eq", some "Quito", none, some 0, some 10⟩]
          (-180, -90) (180, 90) :=
  zero_coordinate_excluded
    [⟨"e", "Eve", "Eq", some "Quito", none, some 0, some 10⟩]
    ⟨"e", "Eve", "Eq", some "Quito", none, some 0, some 10⟩
    (-180, -90) (180, 90) (Or.inr (Or.inl rfl))

end Traveling
